import Mathlib

/-!
Verification development for the abracadabra refactoring engine.

The development shallowly embeds:
* the Position/Selection text-coordinate model,
* the AST abstraction used by the dead-code-elimination refactoring
  (`src/refactorings/remove-dead-code.ts`, here `updateCode`, `removeDeadCode`,
  `hasDeadCode`, `removeDeadCodeFromNestedIf`, `replaceWithAlternate`,
  `replaceWithConsequent`),
* the expression-negation refactoring's negation rewrite and target
  resolution,
* the `VSCodeEditor.readThenWrite` edit computation
  (`src/editor/adapters/vscode-editor.ts`), and
* the error-reason-to-message mapping of the VS Code adapter.

Statements are tagged with the claim identifiers they settle.
-/

/-- Position in a text buffer: zero-based line and character
(`src/editor/position.ts`, spec section 3). -/
structure Position where
  line : Nat
  character : Nat
deriving DecidableEq, Repr

/-- Line-then-character lexicographic order on positions. -/
def Position.isBeforeOrEq (a b : Position) : Bool :=
  decide (a.line < b.line ∨ (a.line = b.line ∧ a.character ≤ b.character))

/-- Selection: an ordered pair of positions (`src/editor/selection.ts`,
spec section 3).  The same shape serves as a node's source range. -/
structure Selection where
  start : Position
  stop : Position
deriving DecidableEq, Repr

/-- Modelled from the spec: `Selection.cursorAt(line, character)` builds a
selection with `start == end` (spec section 4.1; the Selection class is not
under src, only its callers and tests are). -/
def Selection.cursorAt (line character : Nat) : Selection :=
  ⟨⟨line, character⟩, ⟨line, character⟩⟩

/-- Modelled from the spec: `selection.isInsidePath(nodeRange)` is true iff
the selection's start and end both fall within the node range, inclusive
(spec section 4.1; the Selection class is not under src). -/
def Selection.isInside (sel range : Selection) : Bool :=
  Position.isBeforeOrEq range.start sel.start &&
    Position.isBeforeOrEq sel.stop range.stop

/-- Binary (non-logical) operators appearing in the engine's expressions:
the eight comparison operators of the negation table plus representative
arithmetic operators (Babel's BinaryExpression covers both families). -/
inductive BinOp where
  | looseEq | looseNeq | strictEq | strictNeq
  | lt | le | gt | ge
  | plus | minus
deriving DecidableEq, Repr

/-- Logical operators of LogicalExpression nodes. -/
inductive LogicalOp where
  | and | or
deriving DecidableEq, Repr

/-- Expressions, as used by the two worked refactorings: literals,
identifiers, opaque sub-expressions (member expressions, calls, string
literals are all handled opaquely by the engine), unary negation, binary
and logical expressions. -/
inductive Expr where
  | boolLit (b : Bool)
  | numLit (n : Int)
  | ident (name : String)
  | raw (text : String)
  | unaryNot (arg : Expr)
  | bin (op : BinOp) (l r : Expr)
  | logical (op : LogicalOp) (l r : Expr)
deriving DecidableEq, Repr

/-- Modelled from the spec: `ast.getOppositeOperator` maps each of the
eight comparison operators to its logical complement and is
undefined/fails for any other operator (spec section 4.2; the ast module
is not under src).  Failure is represented by `none`. -/
def getOppositeOperator : BinOp → Option BinOp
  | .looseEq => some .looseNeq
  | .looseNeq => some .looseEq
  | .strictEq => some .strictNeq
  | .strictNeq => some .strictEq
  | .lt => some .ge
  | .le => some .gt
  | .gt => some .le
  | .ge => some .lt
  | _ => none

/-- An operator is a comparison iff the negation table defines it. -/
def BinOp.isComparison (op : BinOp) : Bool :=
  (getOppositeOperator op).isSome

/-- `ast.isBinaryExpression`: true exactly on BinaryExpression nodes,
whatever their operator (comparison or arithmetic). -/
def isBinaryExpression : Expr → Bool
  | .bin _ _ _ => true
  | _ => false

/-- Modelled from the spec: conservative constant folding behind
`ast.isTruthy` / `ast.isFalsy` — literals and simple unary forms only; an
expression that cannot be proven constant folds to `none`
(spec section 4.2; the ast module is not under src). -/
def evalStatic : Expr → Option Bool
  | .boolLit b => some b
  | .numLit n => some (decide (n ≠ 0))
  | .unaryNot e => (evalStatic e).map (fun b => !b)
  | _ => none

/-- `ast.isTruthy`: the test is statically truthy. -/
def isTruthy (e : Expr) : Bool := evalStatic e == some true

/-- `ast.isFalsy`: the test is statically falsy. -/
def isFalsy (e : Expr) : Bool := evalStatic e == some false

/-- Identifier or member-expression form (the shapes whose boolean
negation `areOpposite` recognizes). -/
def isIdentLike : Expr → Bool
  | .ident _ => true
  | .raw _ => true
  | _ => false

/-- Modelled from the spec: `ast.areEqual` is structural comparison of
expressions (spec section 4.2; the ast module is not under src). -/
def areEqual (a b : Expr) : Bool := a == b

/-- Modelled from the spec: `ast.areOpposite` holds when one side is the
direct operator-inverse of the other with identical operands, or when one
side is a boolean negation of the other's identifier/member-expression
form (spec section 4.2; the ast module is not under src). -/
def areOpposite (a b : Expr) : Bool :=
  match a, b with
  | .bin opA lA rA, .bin opB lB rB =>
      getOppositeOperator opA == some opB && lA == lB && rA == rB
  | .unaryNot x, y => x == y && isIdentLike y
  | x, .unaryNot y => x == y && isIdentLike x
  | _, _ => false

example : areOpposite (.bin .looseEq (.ident "a") (.ident "b"))
    (.bin .looseNeq (.ident "a") (.ident "b")) = true := by decide

example : areOpposite (.unaryNot (.ident "x")) (.ident "x") = true := by decide

example : getOppositeOperator .plus = none := by decide

/-- Statements, as the dead-code elimination sees them: `if` statements
carrying their source range, test, consequent block body and optional
alternate block body, plus opaque leaf statements.  Block bodies are
modelled as statement lists. -/
inductive Stmt where
  | ifStmt (range : Selection) (test : Expr)
      (consequent : List Stmt) (alternate : Option (List Stmt))
  | other (range : Selection)
deriving Repr

/-- True on IfStatement nodes. -/
def isIfStmt : Stmt → Bool
  | .ifStmt _ _ _ _ => true
  | .other _ => false

/-- A statement list contains an IfStatement at its top level.  Because
opaque statements are leaves, this is also "the Babel traversal of this
block visits at least one IfStatement". -/
def containsIfList (l : List Stmt) : Bool := l.any isIfStmt

/-- Same, for an optional alternate block. -/
def containsIfOpt : Option (List Stmt) → Bool
  | none => false
  | some l => containsIfList l

/-- Body of `replaceWithAlternate` (remove-dead-code.ts, lines 84-87):
the alternate's contents when present, deletion of the node otherwise. -/
def altBody : Option (List Stmt) → List Stmt
  | none => []
  | some l => l

/-- The opposite test computed inside the alternate-side visitor of
`updateCode` (remove-dead-code.ts, lines 53-58): when the outer test is a
BinaryExpression its operator is flipped with `getOppositeOperator`
(failing — `none` — outside the eight comparison operators), otherwise
the test is reused as is. -/
def oppositeTestOf (test : Expr) : Option Expr :=
  match test with
  | .bin op l r => (getOppositeOperator op).map (fun op2 => Expr.bin op2 l r)
  | t => some t

mutual

/-- One step of the nested traversal run by `updateCode` over a block with
the visitor `removeDeadCodeFromNestedIf(test, childPath)`
(remove-dead-code.ts, lines 45-49, 67-82): an IfStatement whose test is
the opposite of the governing `test` is replaced with its alternate
(removed when absent), one whose test equals `test` is replaced with its
consequent; replacement bodies are requeued and visited by the same
visitor, and otherwise the traversal descends into the children.  Returns
the statements replacing the visited one and whether a replacement
occurred. -/
def nestedVisit (test : Expr) : Stmt → (List Stmt × Bool)
  | .other r => ([.other r], false)
  | .ifStmt r t cc ac =>
      if areOpposite test t then
        match ac with
        | none => ([], true)
        | some body => ((nestedVisitList test body).1, true)
      else if areEqual test t then
        ((nestedVisitList test cc).1, true)
      else
        match ac with
        | none =>
            ([.ifStmt r t (nestedVisitList test cc).1 none],
              (nestedVisitList test cc).2)
        | some body =>
            ([.ifStmt r t (nestedVisitList test cc).1
                (some (nestedVisitList test body).1)],
              (nestedVisitList test cc).2 || (nestedVisitList test body).2)

/-- The nested traversal over a whole block body. -/
def nestedVisitList (test : Expr) : List Stmt → (List Stmt × Bool)
  | [] => ([], false)
  | s :: rest =>
      ((nestedVisit test s).1 ++ (nestedVisitList test rest).1,
        (nestedVisit test s).2 || (nestedVisitList test rest).2)

end

example : nestedVisitList (.ident "x")
    [.ifStmt ⟨⟨1, 0⟩, ⟨2, 0⟩⟩ (.unaryNot (.ident "x"))
      [.other ⟨⟨1, 5⟩, ⟨1, 9⟩⟩] (some [.other ⟨⟨2, 5⟩, ⟨2, 9⟩⟩])]
    = ([.other ⟨⟨2, 5⟩, ⟨2, 9⟩⟩], true) := rfl

/-- Every value of an inductive type with at least one field has positive
size; specialized to the types of the embedding. -/
theorem one_le_sizeOf_selection (s : Selection) : 1 ≤ sizeOf s := by
  cases s; simp; omega

/-- Expressions have positive size. -/
theorem one_le_sizeOf_expr (e : Expr) : 1 ≤ sizeOf e := by
  cases e <;> (simp; try omega)

/-- Statement lists have positive size. -/
theorem one_le_sizeOf_stmtList (l : List Stmt) : 1 ≤ sizeOf l := by
  cases l <;> (simp; try omega)

/-- Size of an appended statement list. -/
theorem sizeOf_append_list {A : Type} [SizeOf A] (a b : List A) :
    sizeOf (a ++ b) + 1 = sizeOf a + sizeOf b := by
  induction a with
  | nil => simp; omega
  | cons x xs ihx => simp at ihx ⊢; omega

/-- The nested traversal never grows a block: replacement splices only
subterms.  Stated for the statement and list levels jointly, by strong
induction on size. -/
theorem nestedVisit_sizeOf_le :
    ∀ n : Nat,
      (∀ (test : Expr) (s : Stmt), sizeOf s ≤ n →
        sizeOf (nestedVisit test s).1 ≤ 2 + sizeOf s) ∧
      (∀ (test : Expr) (l : List Stmt), sizeOf l ≤ n →
        sizeOf (nestedVisitList test l).1 ≤ sizeOf l) := by
  intro n
  induction n using Nat.strong_induction_on with
  | _ n ih =>
    constructor
    · intro test s hs
      cases s with
      | other r => simp [nestedVisit.eq_def]; omega
      | ifStmt r t cc ac =>
        have hsz : sizeOf (Stmt.ifStmt r t cc ac) =
            1 + sizeOf r + sizeOf t + sizeOf cc + sizeOf ac := by simp
        have hr := one_le_sizeOf_selection r
        have ht := one_le_sizeOf_expr t
        have hcc1 := one_le_sizeOf_stmtList cc
        by_cases h1 : areOpposite test t
        · cases ac with
          | none =>
            simp only [nestedVisit.eq_def]
            rw [if_pos h1]
            simp
            omega
          | some body =>
            have hb : sizeOf body < n := by
              have : sizeOf (some body) = 1 + sizeOf body := by simp
              omega
            have ihb := (ih (sizeOf body) hb).2 test body le_rfl
            have hob : sizeOf (some body) = 1 + sizeOf body := by simp
            simp only [nestedVisit.eq_def]
            rw [if_pos h1]
            simp
            omega
        · by_cases h2 : areEqual test t
          · have hcc : sizeOf cc < n := by omega
            have ihcc := (ih (sizeOf cc) hcc).2 test cc le_rfl
            simp only [nestedVisit.eq_def]
            rw [if_neg h1, if_pos h2]
            simp
            omega
          · have hcc : sizeOf cc < n := by omega
            have ihcc := (ih (sizeOf cc) hcc).2 test cc le_rfl
            cases ac with
            | none =>
              simp only [nestedVisit.eq_def]
              rw [if_neg h1, if_neg h2]
              simp
              omega
            | some body =>
              have hb : sizeOf body < n := by
                have : sizeOf (some body) = 1 + sizeOf body := by simp
                omega
              have ihb := (ih (sizeOf body) hb).2 test body le_rfl
              simp only [nestedVisit.eq_def]
              rw [if_neg h1, if_neg h2]
              simp
              omega
    · intro test l hl
      cases l with
      | nil => simp [nestedVisitList.eq_def]
      | cons s rest =>
        have hsz : sizeOf (s :: rest) = 1 + sizeOf s + sizeOf rest := by simp
        have hs : sizeOf s < n := by omega
        have hrest : sizeOf rest < n := by omega
        have ihs := (ih (sizeOf s) hs).1 test s le_rfl
        have ihrest := (ih (sizeOf rest) hrest).2 test rest le_rfl
        have happ := sizeOf_append_list (nestedVisit test s).1 (nestedVisitList test rest).1
        rw [nestedVisitList.eq_def]
        simp only []
        omega

/-- Convenient corollary of `nestedVisit_sizeOf_le` at the list level. -/
theorem nestedVisitList_sizeOf (test : Expr) (l : List Stmt) :
    sizeOf (nestedVisitList test l).1 ≤ sizeOf l :=
  (nestedVisit_sizeOf_le (sizeOf l)).2 test l le_rfl

mutual

/-- The outer Babel traversal of `ast.transform(code, { IfStatement(path) })`
as run by `updateCode` (remove-dead-code.ts, lines 26-65), on one statement.
The visitor fires on every IfStatement, pre-order; it returns early when the
selection is not inside the node's range; on a statically falsy (resp.
truthy) test it replaces the node with `replaceWithAlternate` (resp.
`replaceWithConsequent`) and calls `path.stop()`, which halts the whole
traversal; otherwise it runs the two nested traversals of the consequent
and of the alternate (the latter computing the opposite test, which throws
outside the comparison table — modelled by `none`), after which the outer
traversal descends into the mutated children.  Returns the statements
replacing the input one, the accumulated has-changed flag and the stop
flag; `none` models a thrown exception. -/
def outerVisit (sel : Selection) : Stmt → Option (List Stmt × Bool × Bool)
  | .other r => some ([.other r], false, false)
  | .ifStmt r t cc ac =>
      if sel.isInside r then
        if isFalsy t then some (altBody ac, true, true)
        else if isTruthy t then some (cc, true, true)
        else
          match ac with
          | none =>
              match outerList sel (nestedVisitList t cc).1 with
              | none => none
              | some (cc2, ch3, st1) =>
                  some ([.ifStmt r t cc2 none],
                    (nestedVisitList t cc).2 || ch3, st1)
          | some body =>
              if containsIfList body then
                match oppositeTestOf t with
                | none => none
                | some t2 =>
                    match outerList sel (nestedVisitList t cc).1 with
                    | none => none
                    | some (cc2, ch3, st1) =>
                        if st1 then
                          some ([.ifStmt r t cc2 (some (nestedVisitList t2 body).1)],
                            (nestedVisitList t cc).2 || (nestedVisitList t2 body).2 || ch3,
                            true)
                        else
                          match outerList sel (nestedVisitList t2 body).1 with
                          | none => none
                          | some (b2, ch4, st2) =>
                              some ([.ifStmt r t cc2 (some b2)],
                                (nestedVisitList t cc).2 || (nestedVisitList t2 body).2
                                  || ch3 || ch4,
                                st2)
              else
                match outerList sel (nestedVisitList t cc).1 with
                | none => none
                | some (cc2, ch3, st1) =>
                    if st1 then
                      some ([.ifStmt r t cc2 (some body)],
                        (nestedVisitList t cc).2 || ch3, true)
                    else
                      match outerList sel body with
                      | none => none
                      | some (b2, ch4, st2) =>
                          some ([.ifStmt r t cc2 (some b2)],
                            (nestedVisitList t cc).2 || ch3 || ch4, st2)
      else
        match outerList sel cc with
        | none => none
        | some (cc2, ch1, st1) =>
            match ac with
            | none => some ([.ifStmt r t cc2 none], ch1, st1)
            | some body =>
                if st1 then some ([.ifStmt r t cc2 (some body)], ch1, true)
                else
                  match outerList sel body with
                  | none => none
                  | some (b2, ch2, st2) =>
                      some ([.ifStmt r t cc2 (some b2)], ch1 || ch2, st2)
termination_by s => sizeOf s
decreasing_by
  all_goals simp_wf
  all_goals
    (first
      | omega
      | (refine Nat.lt_of_le_of_lt (nestedVisitList_sizeOf _ _) ?_; omega))

/-- The outer traversal over a statement list: statements in order, later
statements untouched once the traversal has been stopped. -/
def outerList (sel : Selection) : List Stmt → Option (List Stmt × Bool × Bool)
  | [] => some ([], false, false)
  | s :: rest =>
      match outerVisit sel s with
      | none => none
      | some (s2, ch1, st1) =>
          if st1 then some (s2 ++ rest, ch1, true)
          else
            match outerList sel rest with
            | none => none
            | some (rest2, ch2, st2) => some (s2 ++ rest2, ch1 || ch2, st2)
termination_by l => sizeOf l
decreasing_by
  all_goals simp_wf
  all_goals omega

end

/-- Result of `ast.transform`: the transformed program and the
has-code-changed flag (spec section 3: `hasCodeChanged` is true iff at
least one replacement occurred).  `none` models a thrown exception. -/
def updateCode (prog : List Stmt) (sel : Selection) :
    Option (List Stmt × Bool) :=
  match outerList sel prog with
  | none => none
  | some (p, ch, _) => some (p, ch)

/-- ErrorReason: the closed enumeration of not-applicable causes, restricted
to the reasons named by the spec and the source (i-show-error-message.ts is
not under src; the three tags below are the ones its callers use). -/
inductive ErrorReason where
  | DidNotFoundNegatableExpression
  | DidNotFoundDeadCode
  | DidNotFoundExtractableCode
deriving DecidableEq, Repr

/-- Observable effects of the dead-code refactoring on its editor:
a single whole-buffer write, or an error notification. -/
inductive EditorOp where
  | write (prog : List Stmt)
  | showError (reason : ErrorReason)
deriving Repr

/-- `removeDeadCode(code, selection, editor)` (remove-dead-code.ts, lines
7-20): run `updateCode`; if the code did not change, report
`DidNotFoundDeadCode` and return, otherwise write the updated code.
Returns the list of editor operations performed; `none` models the thrown
exception propagating. -/
def removeDeadCode (prog : List Stmt) (sel : Selection) :
    Option (List EditorOp) :=
  match updateCode prog sel with
  | none => none
  | some (p, ch) =>
      if ch then some [.write p]
      else some [.showError .DidNotFoundDeadCode]

/-- `hasDeadCode(code, selection)` (remove-dead-code.ts, lines 22-24):
the `hasCodeChanged` flag of the same transform. -/
def hasDeadCode (prog : List Stmt) (sel : Selection) : Option Bool :=
  match updateCode prog sel with
  | none => none
  | some (_, ch) => some ch

example :
    updateCode
      [.ifStmt ⟨⟨0, 0⟩, ⟨0, 18⟩⟩ (.boolLit false)
        [.other ⟨⟨0, 12⟩, ⟨0, 16⟩⟩] none]
      (Selection.cursorAt 0 2)
      = some ([], true) := by
  simp [updateCode, outerList, outerVisit, Selection.isInside,
    Position.isBeforeOrEq, isFalsy, isTruthy, evalStatic, altBody,
    Selection.cursorAt]

example :
    updateCode
      [.ifStmt ⟨⟨0, 0⟩, ⟨2, 1⟩⟩ (.bin .plus (.ident "a") (.ident "b"))
        []
        (some [.ifStmt ⟨⟨1, 7⟩, ⟨1, 24⟩⟩ (.bin .plus (.ident "a") (.ident "b"))
          [] none])]
      (Selection.cursorAt 0 4)
      = none := by
  simp [updateCode, outerList, outerVisit, Selection.isInside,
    Position.isBeforeOrEq, isFalsy, isTruthy, evalStatic,
    containsIfList, isIfStmt, oppositeTestOf, getOppositeOperator,
    nestedVisitList, Selection.cursorAt]

/-- On a block that contains no IfStatement, the nested traversal is a
no-op: its visitor only ever fires on IfStatement nodes. -/
theorem nestedVisitList_iffree (test : Expr) (l : List Stmt)
    (h : containsIfList l = false) : nestedVisitList test l = (l, false) := by
  induction l with
  | nil => simp [nestedVisitList.eq_def]
  | cons s rest ihrest =>
    have hs : isIfStmt s = false := by
      simp [containsIfList] at h
      exact h.1
    have hrest : containsIfList rest = false := by
      simp [containsIfList] at h ⊢
      exact h.2
    cases s with
    | ifStmt r t cc ac => simp [isIfStmt] at hs
    | other r =>
      rw [nestedVisitList.eq_def]
      simp only [nestedVisit.eq_def]
      rw [ihrest hrest]
      simp

/-- On a block that contains no IfStatement, the outer traversal is a
no-op as well: it neither mutates, nor flags a change, nor stops. -/
theorem outerList_iffree (sel : Selection) (l : List Stmt)
    (h : containsIfList l = false) :
    outerList sel l = some (l, false, false) := by
  induction l with
  | nil => simp [outerList.eq_def]
  | cons s rest ihrest =>
    have hs : isIfStmt s = false := by
      simp [containsIfList] at h
      exact h.1
    have hrest : containsIfList rest = false := by
      simp [containsIfList] at h ⊢
      exact h.2
    cases s with
    | ifStmt r t cc ac => simp [isIfStmt] at hs
    | other r =>
      rw [outerList.eq_def]
      simp only [outerVisit.eq_def]
      rw [ihrest hrest]
      simp

/-- An IfStatement that does not contain the selection and whose branches
hold no further IfStatement is left untouched by the outer traversal: the
visitor returns early and the descent finds nothing to visit. -/
theorem outerVisit_skip (sel r : Selection) (t : Expr) (cc : List Stmt)
    (ac : Option (List Stmt))
    (hIn : sel.isInside r = false)
    (hcc : containsIfList cc = false)
    (hac : containsIfOpt ac = false) :
    outerVisit sel (.ifStmt r t cc ac) = some ([.ifStmt r t cc ac], false, false) := by
  rw [outerVisit.eq_def]
  simp only []
  rw [if_neg (by simp [hIn])]
  rw [outerList_iffree sel cc hcc]
  cases ac with
  | none => simp
  | some body =>
    have hbody : containsIfList body = false := by
      simpa [containsIfOpt] using hac
    simp [outerList_iffree sel body hbody]

/-- C5: for an if statement containing the selection whose test is
statically falsy, `removeDeadCode`'s transform replaces the whole if with
the contents of its alternate branch when present and deletes the
statement entirely when absent (`altBody`), and stops descending: the
branch contents are returned verbatim, with no further dead-code analysis
below the resolved node.  When the test is statically truthy, it replaces
the whole if with the contents of its consequent branch and likewise stops
descending. -/
theorem c5_static_test_resolution (sel r : Selection) (t : Expr)
    (cc : List Stmt) (ac : Option (List Stmt))
    (hIn : sel.isInside r = true) :
    (isFalsy t = true →
      updateCode [.ifStmt r t cc ac] sel = some (altBody ac, true)) ∧
    (isTruthy t = true →
      updateCode [.ifStmt r t cc ac] sel = some (cc, true)) := by
  constructor
  · intro h
    rw [updateCode, outerList.eq_def]
    simp only []
    rw [outerVisit.eq_def]
    simp only []
    rw [if_pos hIn, if_pos h]
    simp
  · intro h
    have hf : isFalsy t = false := by
      simp only [isTruthy, beq_iff_eq] at h
      simp [isFalsy, h]
    rw [updateCode, outerList.eq_def]
    simp only []
    rw [outerVisit.eq_def]
    simp only []
    rw [if_pos hIn, if_neg (by simp [hf]), if_pos h]
    simp

/-- Witness for C5: a falsy test whose alternate contains a nested falsy
if is replaced by that alternate verbatim (the nested dead code is not
analysed), and a truthy test is replaced by its consequent. -/
theorem c5_witness :
    (updateCode
      [.ifStmt ⟨⟨0, 0⟩, ⟨3, 1⟩⟩ (.boolLit false)
        [.other ⟨⟨0, 12⟩, ⟨0, 16⟩⟩]
        (some [.ifStmt ⟨⟨2, 2⟩, ⟨2, 20⟩⟩ (.boolLit false)
          [.other ⟨⟨2, 12⟩, ⟨2, 16⟩⟩] none])]
      (Selection.cursorAt 0 2)
      = some ([.ifStmt ⟨⟨2, 2⟩, ⟨2, 20⟩⟩ (.boolLit false)
          [.other ⟨⟨2, 12⟩, ⟨2, 16⟩⟩] none], true)) ∧
    (updateCode
      [.ifStmt ⟨⟨0, 0⟩, ⟨3, 1⟩⟩ (.boolLit true)
        [.other ⟨⟨0, 11⟩, ⟨0, 15⟩⟩] none]
      (Selection.cursorAt 0 2)
      = some ([.other ⟨⟨0, 11⟩, ⟨0, 15⟩⟩], true)) :=
  ⟨(c5_static_test_resolution (Selection.cursorAt 0 2) ⟨⟨0, 0⟩, ⟨3, 1⟩⟩
      (.boolLit false) [.other ⟨⟨0, 12⟩, ⟨0, 16⟩⟩]
      (some [.ifStmt ⟨⟨2, 2⟩, ⟨2, 20⟩⟩ (.boolLit false)
        [.other ⟨⟨2, 12⟩, ⟨2, 16⟩⟩] none])
      (by decide)).1 (by decide),
   (c5_static_test_resolution (Selection.cursorAt 0 2) ⟨⟨0, 0⟩, ⟨3, 1⟩⟩
      (.boolLit true) [.other ⟨⟨0, 11⟩, ⟨0, 15⟩⟩] none
      (by decide)).2 (by decide)⟩

/-- True on the write operation. -/
def isWriteOp : EditorOp → Bool
  | .write _ => true
  | .showError _ => false

/-- Number of buffer writes among the editor operations. -/
def writeCount (ops : List EditorOp) : Nat := ops.countP isWriteOp

/-- Number of error notifications with the given reason. -/
def errorCountFor (r : ErrorReason) (ops : List EditorOp) : Nat :=
  ops.countP fun o =>
    match o with
    | .showError r2 => r2 == r
    | _ => false

/-- C3: `hasDeadCode` is the `hasCodeChanged` flag of the very transform
`removeDeadCode` runs, and it is `true` exactly when `removeDeadCode`
performs a write. -/
theorem c3_probe_apply_agree (prog : List Stmt) (sel : Selection) :
    (hasDeadCode prog sel = (updateCode prog sel).map (fun x => x.2)) ∧
    (hasDeadCode prog sel = some true ↔
      ∃ p, removeDeadCode prog sel = some [.write p]) := by
  unfold hasDeadCode removeDeadCode
  cases h : updateCode prog sel with
  | none => simp
  | some pc =>
    obtain ⟨p, ch⟩ := pc
    cases ch <;> simp

/-- C6: whenever the transform completes, `removeDeadCode` performs
exactly one write if the code changed, and otherwise performs no write
and reports `DidNotFoundDeadCode` exactly once. -/
theorem c6_exactly_one_write (prog : List Stmt) (sel : Selection)
    (p : List Stmt) (ch : Bool)
    (h : updateCode prog sel = some (p, ch)) :
    removeDeadCode prog sel =
      some (if ch then [.write p] else [.showError .DidNotFoundDeadCode]) ∧
    writeCount (if ch then [.write p] else [.showError .DidNotFoundDeadCode]) =
      (if ch then 1 else 0) ∧
    errorCountFor .DidNotFoundDeadCode
      (if ch then [.write p] else [.showError .DidNotFoundDeadCode]) =
      (if ch then 0 else 1) := by
  unfold removeDeadCode
  rw [h]
  cases ch <;> simp [writeCount, errorCountFor, isWriteOp]

/-- A falsy-test if statement evaluates to a change (shared demo input). -/
theorem updateCode_demo_falsy :
    updateCode
      [.ifStmt ⟨⟨0, 0⟩, ⟨0, 18⟩⟩ (.boolLit false)
        [.other ⟨⟨0, 12⟩, ⟨0, 16⟩⟩] none]
      (Selection.cursorAt 0 2)
      = some ([], true) := by
  simp [updateCode, outerList, outerVisit, Selection.isInside,
    Position.isBeforeOrEq, isFalsy, isTruthy, evalStatic, altBody,
    Selection.cursorAt]

/-- A program with no if statement evaluates to no change (shared demo
input). -/
theorem updateCode_demo_noop :
    updateCode [.other ⟨⟨0, 0⟩, ⟨0, 10⟩⟩] (Selection.cursorAt 0 2)
      = some ([.other ⟨⟨0, 0⟩, ⟨0, 10⟩⟩], false) := by
  rw [updateCode, outerList_iffree _ _ (by decide)]

/-- Witness for C6: on a changed transform one write and no error; on an
unchanged transform no write and one `DidNotFoundDeadCode` error. -/
theorem c6_witness :
    removeDeadCode
      [.ifStmt ⟨⟨0, 0⟩, ⟨0, 18⟩⟩ (.boolLit false)
        [.other ⟨⟨0, 12⟩, ⟨0, 16⟩⟩] none]
      (Selection.cursorAt 0 2) = some [.write []] ∧
    removeDeadCode [.other ⟨⟨0, 0⟩, ⟨0, 10⟩⟩] (Selection.cursorAt 0 2)
      = some [.showError .DidNotFoundDeadCode] := by
  have h1 := (c6_exactly_one_write _ _ _ _ updateCode_demo_falsy).1
  have h2 := (c6_exactly_one_write _ _ _ _ updateCode_demo_noop).1
  simp at h1 h2
  exact ⟨h1, h2⟩

/-- C2: evaluating the dead-code refactoring at the failing input
`if (a + b) {} else { if (a + b) {} }` with the cursor on the outer if:
the outer test is a BinaryExpression but not a comparison, its test is not
statically decidable, and the alternate contains a nested if, so the
alternate-side visitor computes `getOppositeOperator("+")`, which is
undefined — the transform throws (`none`) instead of reporting through
`showError`, for `removeDeadCode` and `hasDeadCode` alike. -/
theorem c2_throws_on_noncomparison_binary_test :
    isBinaryExpression (.bin .plus (.ident "a") (.ident "b")) = true ∧
    getOppositeOperator .plus = none ∧
    oppositeTestOf (.bin .plus (.ident "a") (.ident "b")) = none ∧
    removeDeadCode
      [.ifStmt ⟨⟨0, 0⟩, ⟨0, 37⟩⟩ (.bin .plus (.ident "a") (.ident "b"))
        []
        (some [.ifStmt ⟨⟨0, 21⟩, ⟨0, 35⟩⟩
          (.bin .plus (.ident "a") (.ident "b")) [] none])]
      (Selection.cursorAt 0 4) = none ∧
    hasDeadCode
      [.ifStmt ⟨⟨0, 0⟩, ⟨0, 37⟩⟩ (.bin .plus (.ident "a") (.ident "b"))
        []
        (some [.ifStmt ⟨⟨0, 21⟩, ⟨0, 35⟩⟩
          (.bin .plus (.ident "a") (.ident "b")) [] none])]
      (Selection.cursorAt 0 4) = none := by
  refine ⟨by decide, by decide, by decide, ?_, ?_⟩ <;>
    simp [removeDeadCode, hasDeadCode, updateCode, outerList, outerVisit,
      Selection.isInside, Position.isBeforeOrEq, isFalsy, isTruthy,
      evalStatic, containsIfList, isIfStmt, oppositeTestOf,
      getOppositeOperator, nestedVisitList, Selection.cursorAt]

/-- Deleting an absent alternate leaves nothing to contain an if. -/
theorem containsIf_altBody (a : Option (List Stmt))
    (h : containsIfOpt a = false) : containsIfList (altBody a) = false := by
  cases a with
  | none => simp [altBody, containsIfList]
  | some l => simpa [containsIfOpt, altBody] using h

/-- The nested traversal on a block holding a single if with if-free
branches: the replacement dictated by `removeDeadCodeFromNestedIf`. -/
theorem nestedVisit_single (g : Expr) (r2 : Selection) (t2 : Expr)
    (c2 : List Stmt) (a2 : Option (List Stmt))
    (hc : containsIfList c2 = false) (ha : containsIfOpt a2 = false) :
    nestedVisitList g [.ifStmt r2 t2 c2 a2] =
      (if areOpposite g t2 then altBody a2
       else if areEqual g t2 then c2
       else [.ifStmt r2 t2 c2 a2],
       areOpposite g t2 || areEqual g t2) := by
  rw [nestedVisitList.eq_def]
  simp only [nestedVisitList.eq_def]
  rw [nestedVisit.eq_def]
  simp only []
  by_cases h1 : areOpposite g t2
  · rw [if_pos h1]
    cases a2 with
    | none => simp [altBody, h1]
    | some body =>
      simp only []
      rw [nestedVisitList_iffree g body (by simpa [containsIfOpt] using ha)]
      simp [altBody, h1]
  · rw [if_neg h1]
    by_cases h2 : areEqual g t2
    · rw [if_pos h2]
      rw [nestedVisitList_iffree g c2 hc]
      simp [h1, h2]
    · rw [if_neg h2]
      cases a2 with
      | none =>
        rw [nestedVisitList_iffree g c2 hc]
        simp [h1, h2]
      | some body =>
        simp only []
        rw [nestedVisitList_iffree g body (by simpa [containsIfOpt] using ha)]
        simp [h1, h2, nestedVisitList_iffree g c2 hc]

/-- One-element block whose if does not contain the selection and has
if-free branches: the outer traversal leaves it untouched. -/
theorem outerList_single_skip (sel r2 : Selection) (t2 : Expr)
    (c2 : List Stmt) (a2 : Option (List Stmt))
    (hIn : sel.isInside r2 = false)
    (hc : containsIfList c2 = false) (ha : containsIfOpt a2 = false) :
    outerList sel [.ifStmt r2 t2 c2 a2]
      = some ([.ifStmt r2 t2 c2 a2], false, false) := by
  rw [outerList.eq_def]
  simp only []
  rw [outerVisit_skip sel r2 t2 c2 a2 hIn hc ha]
  simp [outerList.eq_def]

/-- After the nested traversal rewrote a single-if block, the outer
traversal's descent into it finds nothing further to do (the selection is
outside the nested if and the spliced bodies are if-free). -/
theorem outerList_after_nested (sel : Selection) (g : Expr)
    (r2 : Selection) (t2 : Expr) (c2 : List Stmt) (a2 : Option (List Stmt))
    (hIn : sel.isInside r2 = false)
    (hc : containsIfList c2 = false) (ha : containsIfOpt a2 = false) :
    outerList sel (nestedVisitList g [.ifStmt r2 t2 c2 a2]).1
      = some ((nestedVisitList g [.ifStmt r2 t2 c2 a2]).1, false, false) := by
  rw [nestedVisit_single g r2 t2 c2 a2 hc ha]
  by_cases h1 : areOpposite g t2
  · simp only [h1, if_true]
    exact outerList_iffree sel (altBody a2) (containsIf_altBody a2 ha)
  · by_cases h2 : areEqual g t2
    · simp only [h1, h2, if_false, if_true]
      exact outerList_iffree sel c2 hc
    · simp only [h1, h2, if_false]
      exact outerList_single_skip sel r2 t2 c2 a2 hIn hc ha

/-- A non-BinaryExpression test is reused as is by the alternate-side
visitor. -/
theorem oppositeTestOf_nonbin (t : Expr) (h : isBinaryExpression t = false) :
    oppositeTestOf t = some t := by
  cases t <;> simp_all [oppositeTestOf, isBinaryExpression]

/-- The transform on an undecidable outer test with one nested if in the
consequent and one in the alternate: both sides are rewritten by the
nested traversal — the consequent against the outer test, the alternate
against the opposite test delivered by `oppositeTestOf`. -/
theorem updateCode_undecidable (sel R Rc Ra : Selection) (t t2 tc ta : Expr)
    (cc ca : List Stmt) (ac aa : Option (List Stmt))
    (hIn : sel.isInside R = true)
    (hInc : sel.isInside Rc = false)
    (hIna : sel.isInside Ra = false)
    (hf : isFalsy t = false) (ht : isTruthy t = false)
    (hot : oppositeTestOf t = some t2)
    (hcc : containsIfList cc = false) (hac : containsIfOpt ac = false)
    (hca : containsIfList ca = false) (haa : containsIfOpt aa = false) :
    updateCode
      [.ifStmt R t [.ifStmt Rc tc cc ac] (some [.ifStmt Ra ta ca aa])] sel
      = some ([.ifStmt R t
          (nestedVisitList t [.ifStmt Rc tc cc ac]).1
          (some (nestedVisitList t2 [.ifStmt Ra ta ca aa]).1)],
        (nestedVisitList t [.ifStmt Rc tc cc ac]).2
          || (nestedVisitList t2 [.ifStmt Ra ta ca aa]).2) := by
  have hov : outerVisit sel
      (.ifStmt R t [.ifStmt Rc tc cc ac] (some [.ifStmt Ra ta ca aa]))
      = some ([.ifStmt R t
          (nestedVisitList t [.ifStmt Rc tc cc ac]).1
          (some (nestedVisitList t2 [.ifStmt Ra ta ca aa]).1)],
        (nestedVisitList t [.ifStmt Rc tc cc ac]).2
          || (nestedVisitList t2 [.ifStmt Ra ta ca aa]).2,
        false) := by
    rw [outerVisit.eq_def]
    simp only []
    rw [if_pos hIn, if_neg (by simp [hf]), if_neg (by simp [ht])]
    rw [if_pos (by simp [containsIfList, isIfStmt])]
    rw [hot]
    simp only []
    rw [outerList_after_nested sel t Rc tc cc ac hInc hcc hac]
    simp only []
    rw [if_neg (by simp)]
    rw [outerList_after_nested sel t2 Ra ta ca aa hIna hca haa]
    simp
  rw [updateCode, outerList.eq_def]
  simp only []
  rw [hov]
  simp [outerList.eq_def]

/-- C4: when the test of the if containing the selection is undecidable,
the transform examines the nested if inside the consequent against the
outer test itself, and the nested if inside the alternate against the
opposite test — the operator-flipped comparison when the outer test is a
BinaryExpression with a comparison operator, the outer test reused as is
when it is not a BinaryExpression; and the nested traversal replaces a
nested if whose test is the opposite of the governing condition by its
alternate (deleting it when absent) and one whose test equals the
governing condition by its consequent. -/
theorem c4_nested_if_replacement :
    (∀ (sel R Rc Ra : Selection) (op op2 : BinOp) (lhs rhs tc ta : Expr)
        (cc ca : List Stmt) (ac aa : Option (List Stmt)),
      sel.isInside R = true →
      sel.isInside Rc = false →
      sel.isInside Ra = false →
      isFalsy (.bin op lhs rhs) = false →
      isTruthy (.bin op lhs rhs) = false →
      getOppositeOperator op = some op2 →
      containsIfList cc = false → containsIfOpt ac = false →
      containsIfList ca = false → containsIfOpt aa = false →
      updateCode
        [.ifStmt R (.bin op lhs rhs) [.ifStmt Rc tc cc ac]
          (some [.ifStmt Ra ta ca aa])] sel
        = some ([.ifStmt R (.bin op lhs rhs)
            (nestedVisitList (.bin op lhs rhs) [.ifStmt Rc tc cc ac]).1
            (some (nestedVisitList (.bin op2 lhs rhs)
              [.ifStmt Ra ta ca aa]).1)],
          (nestedVisitList (.bin op lhs rhs) [.ifStmt Rc tc cc ac]).2
            || (nestedVisitList (.bin op2 lhs rhs) [.ifStmt Ra ta ca aa]).2)) ∧
    (∀ (sel R Rc Ra : Selection) (t tc ta : Expr)
        (cc ca : List Stmt) (ac aa : Option (List Stmt)),
      sel.isInside R = true →
      sel.isInside Rc = false →
      sel.isInside Ra = false →
      isFalsy t = false → isTruthy t = false →
      isBinaryExpression t = false →
      containsIfList cc = false → containsIfOpt ac = false →
      containsIfList ca = false → containsIfOpt aa = false →
      updateCode
        [.ifStmt R t [.ifStmt Rc tc cc ac] (some [.ifStmt Ra ta ca aa])] sel
        = some ([.ifStmt R t
            (nestedVisitList t [.ifStmt Rc tc cc ac]).1
            (some (nestedVisitList t [.ifStmt Ra ta ca aa]).1)],
          (nestedVisitList t [.ifStmt Rc tc cc ac]).2
            || (nestedVisitList t [.ifStmt Ra ta ca aa]).2)) ∧
    (∀ (g : Expr) (r2 : Selection) (t2 : Expr) (c2 : List Stmt)
        (a2 : Option (List Stmt)),
      containsIfList c2 = false → containsIfOpt a2 = false →
      nestedVisitList g [.ifStmt r2 t2 c2 a2] =
        (if areOpposite g t2 then altBody a2
         else if areEqual g t2 then c2
         else [.ifStmt r2 t2 c2 a2],
         areOpposite g t2 || areEqual g t2)) := by
  refine ⟨?_, ?_, ?_⟩
  · intro sel R Rc Ra op op2 lhs rhs tc ta cc ca ac aa
      hIn hInc hIna hf ht hflip hcc hac hca haa
    exact updateCode_undecidable sel R Rc Ra (.bin op lhs rhs)
      (.bin op2 lhs rhs) tc ta cc ca ac aa hIn hInc hIna hf ht
      (by simp [oppositeTestOf, hflip]) hcc hac hca haa
  · intro sel R Rc Ra t tc ta cc ca ac aa
      hIn hInc hIna hf ht hnb hcc hac hca haa
    exact updateCode_undecidable sel R Rc Ra t t tc ta cc ca ac aa
      hIn hInc hIna hf ht (oppositeTestOf_nonbin t hnb) hcc hac hca haa
  · intro g r2 t2 c2 a2 hc ha
    exact nestedVisit_single g r2 t2 c2 a2 hc ha

/-- Witness for C4: outer test `a == b`; the nested if in the consequent
has the opposite test `a != b` and collapses to its alternate; the nested
if in the alternate has test `a != b`, equal to the flipped outer test,
and collapses to its consequent. -/
theorem c4_witness :
    updateCode
      [.ifStmt ⟨⟨0, 0⟩, ⟨6, 1⟩⟩ (.bin .looseEq (.ident "a") (.ident "b"))
        [.ifStmt ⟨⟨1, 2⟩, ⟨3, 3⟩⟩ (.bin .looseNeq (.ident "a") (.ident "b"))
          [.other ⟨⟨1, 10⟩, ⟨1, 14⟩⟩] (some [.other ⟨⟨2, 4⟩, ⟨2, 8⟩⟩])]
        (some [.ifStmt ⟨⟨4, 9⟩, ⟨6, 0⟩⟩
          (.bin .looseNeq (.ident "a") (.ident "b"))
          [.other ⟨⟨5, 4⟩, ⟨5, 8⟩⟩] none])]
      (Selection.cursorAt 0 4)
      = some ([.ifStmt ⟨⟨0, 0⟩, ⟨6, 1⟩⟩
          (.bin .looseEq (.ident "a") (.ident "b"))
          [.other ⟨⟨2, 4⟩, ⟨2, 8⟩⟩]
          (some [.other ⟨⟨5, 4⟩, ⟨5, 8⟩⟩])], true) :=
  c4_nested_if_replacement.1 (Selection.cursorAt 0 4)
    ⟨⟨0, 0⟩, ⟨6, 1⟩⟩ ⟨⟨1, 2⟩, ⟨3, 3⟩⟩ ⟨⟨4, 9⟩, ⟨6, 0⟩⟩
    .looseEq .looseNeq (.ident "a") (.ident "b")
    (.bin .looseNeq (.ident "a") (.ident "b"))
    (.bin .looseNeq (.ident "a") (.ident "b"))
    [.other ⟨⟨1, 10⟩, ⟨1, 14⟩⟩] [.other ⟨⟨5, 4⟩, ⟨5, 8⟩⟩]
    (some [.other ⟨⟨2, 4⟩, ⟨2, 8⟩⟩]) none
    (by decide) (by decide) (by decide) (by decide) (by decide)
    (by decide) (by decide) (by decide) (by decide) (by decide)

/-- Modelled from the spec: the recursive negation rules of the
negate-expression refactoring applied to an operand (`NOT(x)` in spec
section 4.3; negate-expression.ts is not under src, only its test file
is): a comparison flips its operator instead of gaining a `!`; a
non-flippable binary is wrapped; logical expressions De-Morganize with
recursively negated operands; a negation is dropped; anything else gains
a `!`. -/
def negateOperand : Expr → Expr
  | .bin op l r =>
      match getOppositeOperator op with
      | some op2 => .bin op2 l r
      | none => .unaryNot (.bin op l r)
  | .logical .and l r => .logical .or (negateOperand l) (negateOperand r)
  | .logical .or l r => .logical .and (negateOperand l) (negateOperand r)
  | .unaryNot e => e
  | e => .unaryNot e

/-- Modelled from the spec: the whole-expression negation rewrite (spec
section 4.3): an already-negated expression `!(x)` is simplified back
(its operand is recursively negated without re-wrapping), anything else
is rewritten to the negated operand wrapped in exactly one `!`. -/
def negateExpr : Expr → Expr
  | .unaryNot e => negateOperand e
  | e => .unaryNot (negateOperand e)

/-- Number of top-level `!` wrappers. -/
def topNots : Expr → Nat
  | .unaryNot e => 1 + topNots e
  | _ => 0

/-- Concrete operator syntax. -/
def printBinOp : BinOp → String
  | .looseEq => "=="
  | .looseNeq => "!="
  | .strictEq => "==="
  | .strictNeq => "!=="
  | .lt => "<"
  | .le => "<="
  | .gt => ">"
  | .ge => ">="
  | .plus => "+"
  | .minus => "-"

/-- An expression printed without surrounding parentheses. -/
def isAtomicExpr : Expr → Bool
  | .boolLit _ => true
  | .numLit _ => true
  | .ident _ => true
  | .raw _ => true
  | _ => false

/-- Serialization of expressions, in the style of the engine's re-printer
as exhibited by the test fixtures. -/
def printExpr : Expr → String
  | .boolLit true => "true"
  | .boolLit false => "false"
  | .numLit n => toString n
  | .ident n => n
  | .raw s => s
  | .unaryNot e =>
      if isAtomicExpr e then "!" ++ printExpr e
      else "!(" ++ printExpr e ++ ")"
  | .bin op l r => printExpr l ++ " " ++ printBinOp op ++ " " ++ printExpr r
  | .logical .and l r => printExpr l ++ " && " ++ printExpr r
  | .logical .or l r => printExpr l ++ " || " ++ printExpr r

/-- C7: negation De-Morganizes logical expressions — `a && b` becomes
`!(NOT(a) || NOT(b))` and `a || b` becomes `!(NOT(a) && NOT(b))`, where
`NOT` is the recursive operand negation, under which a comparison flips
its operator instead of gaining a redundant `!`; the result carries
exactly one top-level `!`.  The serialized outputs on the fixtures of the
negate-expression test file agree. -/
theorem c7_demorgan_negation :
    (∀ a b : Expr, negateExpr (.logical .and a b)
      = .unaryNot (.logical .or (negateOperand a) (negateOperand b))) ∧
    (∀ a b : Expr, negateExpr (.logical .or a b)
      = .unaryNot (.logical .and (negateOperand a) (negateOperand b))) ∧
    (∀ (op op2 : BinOp) (l r : Expr), getOppositeOperator op = some op2 →
      negateOperand (.bin op l r) = .bin op2 l r) ∧
    (∀ (lop : LogicalOp) (a b : Expr),
      topNots (negateExpr (.logical lop a b)) = 1) ∧
    printExpr (negateExpr (.logical .and
      (.bin .looseEq (.ident "a") (.ident "b"))
      (.bin .looseEq (.ident "b") (.ident "c")))) = "!(a != b || b != c)" ∧
    printExpr (negateExpr (.logical .or
      (.bin .looseEq (.ident "a") (.ident "b"))
      (.bin .looseEq (.ident "b") (.ident "c")))) = "!(a != b && b != c)" ∧
    printExpr (negateExpr (.logical .or
      (.ident "isValid") (.ident "isCorrect")))
      = "!(!isValid && !isCorrect)" ∧
    printExpr (negateExpr (.logical .or
      (.unaryNot (.ident "isValid")) (.ident "isCorrect")))
      = "!(isValid && !isCorrect)" ∧
    printExpr (negateExpr (.unaryNot (.logical .and
      (.bin .looseNeq (.ident "a") (.ident "b"))
      (.bin .looseNeq (.ident "b") (.ident "c"))))) = "a == b || b == c" ∧
    printExpr (negateExpr (.bin .looseEq (.ident "a") (.ident "b")))
      = "!(a != b)" ∧
    printExpr (negateExpr (.bin .gt
      (.bin .plus (.ident "a") (.ident "b")) (.numLit 0)))
      = "!(a + b <= 0)" := by
  refine ⟨fun a b => rfl, fun a b => rfl, ?_, ?_,
    rfl, rfl, rfl, rfl, rfl, rfl, rfl⟩
  · intro op op2 l r h
    simp [negateOperand, h]
  · intro lop a b
    cases lop <;> rfl

/-- Witness for C7: a nested comparison under the comparison-flip rule. -/
theorem c7_witness :
    negateOperand (.bin .looseEq (.ident "a") (.ident "b"))
      = .bin .looseNeq (.ident "a") (.ident "b") :=
  c7_demorgan_negation.2.2.1 .looseEq .looseNeq (.ident "a") (.ident "b") rfl

/-- Expressions carrying their source ranges, as the negate-expression
target resolution sees them; `rleaf` stands for any non-negatable node
(call expressions, member accesses, literals) with its source text. -/
inductive RExpr where
  | rident (range : Selection) (name : String)
  | rnot (range : Selection) (arg : RExpr)
  | rbin (range : Selection) (op : BinOp) (l r : RExpr)
  | rlogical (range : Selection) (op : LogicalOp) (l r : RExpr)
  | rleaf (range : Selection) (text : String)
deriving DecidableEq, Repr

/-- Source range of a ranged expression. -/
def RExpr.range : RExpr → Selection
  | .rident r _ => r
  | .rnot r _ => r
  | .rbin r _ _ _ => r
  | .rlogical r _ _ _ => r
  | .rleaf r _ => r

/-- Modelled from the spec: which nodes are negatable targets (spec
section 4.3 step 1, fixed by the selection fixtures of the in-src test
file): a comparison BinaryExpression, a LogicalExpression, or a negation
`!(...)` of such an expression; an identifier is not its own target, and
a logical or comparison node directly under a `!` yields the `!` node as
the target instead. -/
def negatableHere (parentIsNot : Bool) : RExpr → Bool
  | .rbin _ op _ _ => op.isComparison && !parentIsNot
  | .rlogical _ _ _ _ => !parentIsNot
  | .rnot _ arg =>
      (match arg with
       | .rlogical _ _ _ _ => true
       | .rbin _ op _ _ => op.isComparison
       | _ => false)
  | _ => false

/-- Negatable candidates in pre-order (the traversal order of the
expression-finding visitor). -/
def candidates (parentIsNot : Bool) : RExpr → List RExpr
  | .rnot r arg =>
      (if negatableHere parentIsNot (.rnot r arg)
       then [RExpr.rnot r arg] else []) ++ candidates true arg
  | .rbin r op l rr =>
      (if negatableHere parentIsNot (.rbin r op l rr)
       then [RExpr.rbin r op l rr] else [])
        ++ candidates false l ++ candidates false rr
  | .rlogical r op l rr =>
      (if negatableHere parentIsNot (.rlogical r op l rr)
       then [RExpr.rlogical r op l rr] else [])
        ++ candidates false l ++ candidates false rr
  | e => if negatableHere parentIsNot e then [e] else []

/-- Modelled from the spec: `findNegatableExpression(code, selection)` —
the innermost negatable expression whose range contains the selection
(the visitor keeps overwriting its result as it descends, so the last
candidate in pre-order that contains the selection wins). -/
def findNegatableExpression (sel : Selection) (e : RExpr) : Option RExpr :=
  ((candidates false e).filter (fun c => sel.isInside c.range)).getLast?

/-- The resolved target selection. -/
def findTargetRange (sel : Selection) (e : RExpr) : Option Selection :=
  (findNegatableExpression sel e).map RExpr.range

/-- Forget the ranges of an expression. -/
def forget : RExpr → Expr
  | .rident _ n => .ident n
  | .rnot _ a => .unaryNot (forget a)
  | .rbin _ op l r => .bin op (forget l) (forget r)
  | .rlogical _ op l r => .logical op (forget l) (forget r)
  | .rleaf _ s => .raw s

example :
    findTargetRange (Selection.cursorAt 0 7)
      (.rbin ⟨⟨0, 4⟩, ⟨0, 10⟩⟩ .looseEq
        (.rident ⟨⟨0, 4⟩, ⟨0, 5⟩⟩ "a") (.rident ⟨⟨0, 9⟩, ⟨0, 10⟩⟩ "b"))
      = some ⟨⟨0, 4⟩, ⟨0, 10⟩⟩ := by decide

example :
    findTargetRange (Selection.cursorAt 0 14)
      (.rnot ⟨⟨0, 4⟩, ⟨0, 23⟩⟩ (.rlogical ⟨⟨0, 6⟩, ⟨0, 22⟩⟩ .and
        (.rbin ⟨⟨0, 6⟩, ⟨0, 12⟩⟩ .looseNeq
          (.rident ⟨⟨0, 6⟩, ⟨0, 7⟩⟩ "a") (.rident ⟨⟨0, 11⟩, ⟨0, 12⟩⟩ "b"))
        (.rbin ⟨⟨0, 16⟩, ⟨0, 22⟩⟩ .looseNeq
          (.rident ⟨⟨0, 16⟩, ⟨0, 17⟩⟩ "b") (.rident ⟨⟨0, 21⟩, ⟨0, 22⟩⟩ "c"))))
      = some ⟨⟨0, 4⟩, ⟨0, 23⟩⟩ := by decide

/-- C8: target resolution on logical expressions.  With the cursor
anywhere on an operand identifier (`isValid` in `isValid || b == c`) or a
negated identifier (`!isValid` in `!isValid || b == c`) the resolved
target spans the whole logical expression; with the cursor inside one
comparison operand of `a == b || b == c` the target is that operand's own
range (left or right); and with the cursor at character 12 — on the `||`
operator of `if (a == b || b == c) {}` — the target spans columns 4-20,
the whole logical expression. -/
theorem c8_selection_widening (c : Nat) :
    (4 ≤ c → c ≤ 11 →
      findTargetRange (Selection.cursorAt 0 c)
        (.rlogical ⟨⟨0, 4⟩, ⟨0, 21⟩⟩ .or
          (.rident ⟨⟨0, 4⟩, ⟨0, 11⟩⟩ "isValid")
          (.rbin ⟨⟨0, 15⟩, ⟨0, 21⟩⟩ .looseEq
            (.rident ⟨⟨0, 15⟩, ⟨0, 16⟩⟩ "b") (.rident ⟨⟨0, 20⟩, ⟨0, 21⟩⟩ "c")))
        = some ⟨⟨0, 4⟩, ⟨0, 21⟩⟩) ∧
    (4 ≤ c → c ≤ 12 →
      findTargetRange (Selection.cursorAt 0 c)
        (.rlogical ⟨⟨0, 4⟩, ⟨0, 22⟩⟩ .or
          (.rnot ⟨⟨0, 4⟩, ⟨0, 12⟩⟩ (.rident ⟨⟨0, 5⟩, ⟨0, 12⟩⟩ "isValid"))
          (.rbin ⟨⟨0, 16⟩, ⟨0, 22⟩⟩ .looseEq
            (.rident ⟨⟨0, 16⟩, ⟨0, 17⟩⟩ "b") (.rident ⟨⟨0, 21⟩, ⟨0, 22⟩⟩ "c")))
        = some ⟨⟨0, 4⟩, ⟨0, 22⟩⟩) ∧
    (4 ≤ c → c ≤ 10 →
      findTargetRange (Selection.cursorAt 0 c)
        (.rlogical ⟨⟨0, 4⟩, ⟨0, 20⟩⟩ .or
          (.rbin ⟨⟨0, 4⟩, ⟨0, 10⟩⟩ .looseEq
            (.rident ⟨⟨0, 4⟩, ⟨0, 5⟩⟩ "a") (.rident ⟨⟨0, 9⟩, ⟨0, 10⟩⟩ "b"))
          (.rbin ⟨⟨0, 14⟩, ⟨0, 20⟩⟩ .looseEq
            (.rident ⟨⟨0, 14⟩, ⟨0, 15⟩⟩ "b") (.rident ⟨⟨0, 19⟩, ⟨0, 20⟩⟩ "c")))
        = some ⟨⟨0, 4⟩, ⟨0, 10⟩⟩) ∧
    (14 ≤ c → c ≤ 20 →
      findTargetRange (Selection.cursorAt 0 c)
        (.rlogical ⟨⟨0, 4⟩, ⟨0, 20⟩⟩ .or
          (.rbin ⟨⟨0, 4⟩, ⟨0, 10⟩⟩ .looseEq
            (.rident ⟨⟨0, 4⟩, ⟨0, 5⟩⟩ "a") (.rident ⟨⟨0, 9⟩, ⟨0, 10⟩⟩ "b"))
          (.rbin ⟨⟨0, 14⟩, ⟨0, 20⟩⟩ .looseEq
            (.rident ⟨⟨0, 14⟩, ⟨0, 15⟩⟩ "b") (.rident ⟨⟨0, 19⟩, ⟨0, 20⟩⟩ "c")))
        = some ⟨⟨0, 14⟩, ⟨0, 20⟩⟩) ∧
    findTargetRange (Selection.cursorAt 0 12)
      (.rlogical ⟨⟨0, 4⟩, ⟨0, 20⟩⟩ .or
        (.rbin ⟨⟨0, 4⟩, ⟨0, 10⟩⟩ .looseEq
          (.rident ⟨⟨0, 4⟩, ⟨0, 5⟩⟩ "a") (.rident ⟨⟨0, 9⟩, ⟨0, 10⟩⟩ "b"))
        (.rbin ⟨⟨0, 14⟩, ⟨0, 20⟩⟩ .looseEq
          (.rident ⟨⟨0, 14⟩, ⟨0, 15⟩⟩ "b") (.rident ⟨⟨0, 19⟩, ⟨0, 20⟩⟩ "c")))
      = some ⟨⟨0, 4⟩, ⟨0, 20⟩⟩ := by
  refine ⟨?_, ?_, ?_, ?_, by decide⟩ <;>
    (intro h1 h2; interval_cases c <;> decide)

/-- Witness for C8: cursor on the identifier operand widens to the whole
logical expression; cursor inside the left comparison resolves to the
left operand's own range. -/
theorem c8_witness :
    findTargetRange (Selection.cursorAt 0 6)
      (.rlogical ⟨⟨0, 4⟩, ⟨0, 21⟩⟩ .or
        (.rident ⟨⟨0, 4⟩, ⟨0, 11⟩⟩ "isValid")
        (.rbin ⟨⟨0, 15⟩, ⟨0, 21⟩⟩ .looseEq
          (.rident ⟨⟨0, 15⟩, ⟨0, 16⟩⟩ "b") (.rident ⟨⟨0, 20⟩, ⟨0, 21⟩⟩ "c")))
      = some ⟨⟨0, 4⟩, ⟨0, 21⟩⟩ ∧
    findTargetRange (Selection.cursorAt 0 6)
      (.rlogical ⟨⟨0, 4⟩, ⟨0, 20⟩⟩ .or
        (.rbin ⟨⟨0, 4⟩, ⟨0, 10⟩⟩ .looseEq
          (.rident ⟨⟨0, 4⟩, ⟨0, 5⟩⟩ "a") (.rident ⟨⟨0, 9⟩, ⟨0, 10⟩⟩ "b"))
        (.rbin ⟨⟨0, 14⟩, ⟨0, 20⟩⟩ .looseEq
          (.rident ⟨⟨0, 14⟩, ⟨0, 15⟩⟩ "b") (.rident ⟨⟨0, 19⟩, ⟨0, 20⟩⟩ "c")))
      = some ⟨⟨0, 4⟩, ⟨0, 10⟩⟩ :=
  ⟨(c8_selection_widening 6).1 (by decide) (by decide),
   (c8_selection_widening 6).2.2.1 (by decide) (by decide)⟩

/-- Observable effects of the negate-expression refactoring: a buffer
edit through `readThenWrite` (target selection and replacement text) or
an error notification. -/
inductive NegOp where
  | edit (sel : Selection) (code : String)
  | err (reason : ErrorReason)
deriving DecidableEq, Repr

/-- True on the edit operation. -/
def negOpIsEdit : NegOp → Bool
  | .edit _ _ => true
  | .err _ => false

/-- Number of buffer edits. -/
def editCount (ops : List NegOp) : Nat := ops.countP negOpIsEdit

/-- Number of error notifications. -/
def errCount (ops : List NegOp) : Nat := ops.countP fun o => !negOpIsEdit o

/-- Modelled from the spec: `negateExpression(code, selection,
readThenWrite, showError)` (spec section 4.3; negate-expression.ts is not
under src): resolve the negatable target; when none encloses the
selection, report `DidNotFoundNegatableExpression`; otherwise replace
exactly the resolved target range with the rewritten text through one
`readThenWrite` edit. -/
def negateExpression (e : RExpr) (sel : Selection) : List NegOp :=
  match findNegatableExpression sel e with
  | none => [.err .DidNotFoundNegatableExpression]
  | some target =>
      [.edit target.range (printExpr (negateExpr (forget target)))]

/-- C9: on `console.log("Nothing to negate here!")` with the cursor at
column 0 no negatable expression encloses the selection, so
`negateExpression` performs no edit and reports
`DidNotFoundNegatableExpression` exactly once; and whenever a negatable
target is resolved it performs exactly one edit — of the target's own
range — and no error notification. -/
theorem c9_error_contract :
    (negateExpression
        (.rleaf ⟨⟨0, 0⟩, ⟨0, 38⟩⟩ "console.log(\"Nothing to negate here!\")")
        (Selection.cursorAt 0 0)
      = [.err .DidNotFoundNegatableExpression]) ∧
    (editCount [NegOp.err .DidNotFoundNegatableExpression] = 0 ∧
      errCount [NegOp.err .DidNotFoundNegatableExpression] = 1) ∧
    (∀ (e : RExpr) (sel : Selection) (target : RExpr),
      findNegatableExpression sel e = some target →
      negateExpression e sel
          = [.edit target.range (printExpr (negateExpr (forget target)))] ∧
        editCount (negateExpression e sel) = 1 ∧
        errCount (negateExpression e sel) = 0) := by
  refine ⟨by decide, by decide, ?_⟩
  intro e sel target h
  unfold negateExpression
  rw [h]
  simp [editCount, errCount, negOpIsEdit]

/-- Witness for C9: the logical-or fixture with the cursor on the `||`
operator performs the single edit the test expects — the whole logical
expression's range replaced by the negated text. -/
theorem c9_witness :
    negateExpression
      (.rlogical ⟨⟨0, 4⟩, ⟨0, 20⟩⟩ .or
        (.rbin ⟨⟨0, 4⟩, ⟨0, 10⟩⟩ .looseEq
          (.rident ⟨⟨0, 4⟩, ⟨0, 5⟩⟩ "a") (.rident ⟨⟨0, 9⟩, ⟨0, 10⟩⟩ "b"))
        (.rbin ⟨⟨0, 14⟩, ⟨0, 20⟩⟩ .looseEq
          (.rident ⟨⟨0, 14⟩, ⟨0, 15⟩⟩ "b") (.rident ⟨⟨0, 19⟩, ⟨0, 20⟩⟩ "c")))
      (Selection.cursorAt 0 12)
      = [.edit ⟨⟨0, 4⟩, ⟨0, 20⟩⟩ "!(a != b && b != c)"] :=
  (c9_error_contract.2.2
    (.rlogical ⟨⟨0, 4⟩, ⟨0, 20⟩⟩ .or
      (.rbin ⟨⟨0, 4⟩, ⟨0, 10⟩⟩ .looseEq
        (.rident ⟨⟨0, 4⟩, ⟨0, 5⟩⟩ "a") (.rident ⟨⟨0, 9⟩, ⟨0, 10⟩⟩ "b"))
      (.rbin ⟨⟨0, 14⟩, ⟨0, 20⟩⟩ .looseEq
        (.rident ⟨⟨0, 14⟩, ⟨0, 15⟩⟩ "b") (.rident ⟨⟨0, 19⟩, ⟨0, 20⟩⟩ "c")))
    (Selection.cursorAt 0 12)
    (.rlogical ⟨⟨0, 4⟩, ⟨0, 20⟩⟩ .or
      (.rbin ⟨⟨0, 4⟩, ⟨0, 10⟩⟩ .looseEq
        (.rident ⟨⟨0, 4⟩, ⟨0, 5⟩⟩ "a") (.rident ⟨⟨0, 9⟩, ⟨0, 10⟩⟩ "b"))
      (.rbin ⟨⟨0, 14⟩, ⟨0, 20⟩⟩ .looseEq
        (.rident ⟨⟨0, 14⟩, ⟨0, 15⟩⟩ "b") (.rident ⟨⟨0, 19⟩, ⟨0, 20⟩⟩ "c")))
    (by decide)).1

/-- Modification: a replacement string plus the selection it replaces
(`src/editor/editor.ts`, spec section 3). -/
structure Modification where
  code : String
  selection : Selection
deriving DecidableEq, Repr

/-- A computed text edit: the document range to replace and the new
text (the payload of `vscode.TextEdit`). -/
structure TextEdit where
  range : Selection
  newText : String
deriving DecidableEq, Repr

/-- Text of the document (a list of lines) inside a selection
(`this.document.getText(range)`). -/
def getTextInRange (doc : List String) (sel : Selection) : String :=
  if sel.start.line = sel.stop.line then
    ((doc.getD sel.start.line "").drop sel.start.character).take
      (sel.stop.character - sel.start.character)
  else
    String.intercalate "\n"
      ([(doc.getD sel.start.line "").drop sel.start.character]
        ++ ((doc.drop (sel.start.line + 1)).take
              (sel.stop.line - sel.start.line - 1))
        ++ [(doc.getD sel.stop.line "").take sel.stop.character])

/-- `VSCodeEditor.readThenWrite(selection, getModifications)`
(vscode-editor.ts, lines 137-167): read the text of the given selection,
compute the modifications from it, and turn each modification into a text
edit whose range is the modification's selection — used as document
positions directly (`toVSCodePosition(selection.start)`), with no
coordinate translation. -/
def readThenWrite (doc : List String) (selection : Selection)
    (getModifications : String → List Modification) : List TextEdit :=
  (getModifications (getTextInRange doc selection)).map fun m =>
    { range := m.selection, newText := m.code }

/-- Shift of a local-fragment position into document coordinates for a
fragment starting at `base`: positions on the fragment's first line are
offset by the base character, later lines by the base line. -/
def translateFromLocal (base : Position) (p : Position) : Position :=
  if p.line = 0 then ⟨base.line, base.character + p.character⟩
  else ⟨base.line + p.line, p.character⟩

/-- Stated from the claim's words, for comparison with `readThenWrite`:
the host translates each modification's local-fragment selection back to
absolute document coordinates before applying. -/
def readThenWriteClaimed (doc : List String) (selection : Selection)
    (getModifications : String → List Modification) : List TextEdit :=
  (getModifications (getTextInRange doc selection)).map fun m =>
    { range := ⟨translateFromLocal selection.start m.selection.start,
        translateFromLocal selection.start m.selection.stop⟩,
      newText := m.code }

/-- Apply a single-line, single-element edit list to a line of text. -/
def applyFirstEdit (line : String) (edits : List TextEdit) : String :=
  match edits with
  | [e] => line.take e.range.start.character ++ e.newText
      ++ line.drop e.range.stop.character
  | _ => line

/-- C1, counterexample: on the negate-expression scenario of the test
file — document `if (a == b) {}`, fragment selection columns 4-10, the
modification `{ code: "!(a != b)", selection: [0,4]-[0,10] }` exactly as
the test expects it — the edits `readThenWrite` computes are not the
edits the claim dictates (local-fragment coordinates translated by the
host): the modification's selection is taken as absolute document
coordinates, untranslated. -/
theorem c1_counterexample :
    readThenWrite ["if (a == b) \x7b\x7d"] ⟨⟨0, 4⟩, ⟨0, 10⟩⟩
        (fun _ => [⟨"!(a != b)", ⟨⟨0, 4⟩, ⟨0, 10⟩⟩⟩])
      ≠ readThenWriteClaimed ["if (a == b) \x7b\x7d"] ⟨⟨0, 4⟩, ⟨0, 10⟩⟩
        (fun _ => [⟨"!(a != b)", ⟨⟨0, 4⟩, ⟨0, 10⟩⟩⟩]) := by
  decide

/-- C1, amended: the selections carried by Modifications are already
absolute document coordinates, and `readThenWrite` applies each
modification's selection directly as the edit range, with no
local-to-absolute translation; doing so on the negate fixture produces
exactly the edit the test expects and the correctly rewritten line. -/
theorem c1_absolute_modification_coordinates :
    (∀ (doc : List String) (sel : Selection)
        (g : String → List Modification),
      readThenWrite doc sel g =
        (g (getTextInRange doc sel)).map fun m =>
          { range := m.selection, newText := m.code }) ∧
    readThenWrite ["if (a == b) \x7b\x7d"] ⟨⟨0, 4⟩, ⟨0, 10⟩⟩
        (fun _ => [⟨"!(a != b)", ⟨⟨0, 4⟩, ⟨0, 10⟩⟩⟩])
      = [{ range := ⟨⟨0, 4⟩, ⟨0, 10⟩⟩, newText := "!(a != b)" }] ∧
    getTextInRange ["if (a == b) \x7b\x7d"] ⟨⟨0, 4⟩, ⟨0, 10⟩⟩ = "a == b" ∧
    applyFirstEdit "if (a == b) \x7b\x7d"
        (readThenWrite ["if (a == b) \x7b\x7d"] ⟨⟨0, 4⟩, ⟨0, 10⟩⟩
          (fun _ => [⟨"!(a != b)", ⟨⟨0, 4⟩, ⟨0, 10⟩⟩⟩]))
      = "if (!(a != b)) \x7b\x7d" :=
  ⟨fun _ _ _ => rfl, by decide, by decide, by decide⟩

namespace ShowErrorMessageAdapter

/-- The ErrorReason → user-message mapping of the VS Code adapter
(`toString` in src/unnamed/part_000, lines 82-90): one specific message
for `DidNotFoundExtractableCode`, a generic catch-all apology for every
other reason. -/
def toString : ErrorReason → String
  | .DidNotFoundExtractableCode =>
      "I didn\x27t found a valid code to extract from current selection 🤔"
  | _ => "I\x27m sorry, something went wrong but I\x27m not sure what 😅"

end ShowErrorMessageAdapter

/-- C10: the mapping returns its specific extraction message only for
`DidNotFoundExtractableCode`; every other reason — in particular
`DidNotFoundNegatableExpression` and `DidNotFoundDeadCode` — gets the
generic catch-all apology. -/
theorem c10_message_mapping (r : ErrorReason) :
    (ShowErrorMessageAdapter.toString r =
        "I didn\x27t found a valid code to extract from current selection 🤔"
      ↔ r = .DidNotFoundExtractableCode) ∧
    (r ≠ .DidNotFoundExtractableCode →
      ShowErrorMessageAdapter.toString r =
        "I\x27m sorry, something went wrong but I\x27m not sure what 😅") := by
  cases r <;> exact ⟨by decide, by decide⟩

/-- Witness for C10: `DidNotFoundDeadCode` and
`DidNotFoundNegatableExpression` both map to the generic message. -/
theorem c10_witness :
    ShowErrorMessageAdapter.toString .DidNotFoundDeadCode =
      "I\x27m sorry, something went wrong but I\x27m not sure what 😅" ∧
    ShowErrorMessageAdapter.toString .DidNotFoundNegatableExpression =
      "I\x27m sorry, something went wrong but I\x27m not sure what 😅" :=
  ⟨(c10_message_mapping .DidNotFoundDeadCode).2 (by decide),
   (c10_message_mapping .DidNotFoundNegatableExpression).2 (by decide)⟩
